import Mathlib

/-!
Verification of the batch partitioner of `src/Spotify_API.ipynb`.

The only algorithmic component of the repository is the function
`partition_dict`, defined in the notebook (after importing `math`) as

  def partition_dict(my_dict,increments):
      my_list = list(my_dict.keys())
      size = len(my_list)
      parts = math.ceil(size/increments)

      partitions = []
      for i in range(0,parts):
          partitions.append(my_list[i*increments:(100+(i*increments))])

      return partitions

and called exactly once, as `partition_dict(tracks,100)`.

We embed this function shallowly: a Python `dict` is an ordered association
list (Python dicts preserve insertion order, and the function only ever reads
the ordered key sequence via `list(my_dict.keys())`); Python `int` is `Int`;
the fallible division `size/increments` (a `ZeroDivisionError` when
`increments == 0`) makes the embedding return `Except`.  `math.ceil(a/b)` on
integer arguments is embedded as the exact mathematical ceiling of the
rational `a/b` (for the magnitudes involved the float division is exact
enough that `math.ceil` agrees with the exact ceiling).  Python list slicing
`l[a:b]` (step 1) is embedded by `pySlice` with Python's clamping rules for
out-of-range and negative bounds.
-/

namespace Spotify

/-- Errors a run of the embedded code can raise.  The only fallible operation
in `partition_dict` is the division `size/increments`. -/
inductive PyErr where
  | zeroDivisionError
deriving DecidableEq, Repr

/-- Python slice-bound normalisation for a list of length `n` and step `+1`:
a negative bound counts from the end (clamped below at `0`); a nonnegative
bound is clamped above at `n`. -/
def pyBound (n : Nat) (i : Int) : Nat :=
  if i < 0 then (i + n).toNat else min i.toNat n

/-- Python list slicing `l[a:b]` (implicit step `1`). -/
def pySlice (l : List α) (a b : Int) : List α :=
  (l.drop (pyBound l.length a)).take (pyBound l.length b - pyBound l.length a)

/-- `math.ceil(a/b)` for integers `a`, `b` with `b ≠ 0`: the ceiling of the
rational `a/b`, computed as the negated floor division of `-a` by `b`. -/
def pyCeilDiv (a b : Int) : Int := -(Int.fdiv (-a) b)

/-- Shallow embedding of `partition_dict` (notebook cell 24).  `my_dict` is
the ordered association list of a Python dict; `increments` the requested
batch size.  Note the literal `100` in the upper slice bound, transcribed
from the source. -/
def partition_dict (my_dict : List (K × V)) (increments : Int) :
    Except PyErr (List (List K)) :=
  let my_list := my_dict.map Prod.fst
  let size : Int := (my_list.length : Int)
  if increments = 0 then Except.error PyErr.zeroDivisionError
  else
    let parts : Int := pyCeilDiv size increments
    Except.ok ((List.range parts.toNat).map (fun (i : Nat) =>
      pySlice my_list ((i : Int) * increments) (100 + (i : Int) * increments)))

/-- Reference partitioner following the specification text (section 4.1):
partition `k` contains the identifiers at positions
`[k*M, min((k+1)*M, N))`, and there are `ceil(N/M)` partitions. -/
def spec_partition (ids : List K) (m : Nat) : List (List K) :=
  (List.range ((ids.length + m - 1) / m)).map (fun k => (ids.drop (k * m)).take m)

/-- The environment of a run of the body of `partition_dict`: the local
variables of the function, including the argument `my_dict` itself. -/
structure PyEnv (K V : Type) where
  my_dict : List (K × V)
  my_list : List K
  size : Int
  parts : Int
  partitions : List (List K)

/-- Statement-level embedding of the body of `partition_dict`: each source
line is one update of the environment, the `for` loop is a fold over
`range`, and the returned value is read off the final environment.  This
finer embedding exposes that no statement of the body ever writes to
`my_dict`. -/
def partition_dict_body (e0 : PyEnv K V) (increments : Int) :
    Except PyErr (List (List K) × PyEnv K V) :=
  let e1 := { e0 with my_list := e0.my_dict.map Prod.fst }
  let e2 := { e1 with size := (e1.my_list.length : Int) }
  if increments = 0 then Except.error PyErr.zeroDivisionError
  else
    let e3 := { e2 with parts := pyCeilDiv e2.size increments }
    let e4 := { e3 with partitions := [] }
    let e5 := (List.range e4.parts.toNat).foldl
      (fun (e : PyEnv K V) (i : Nat) => { e with partitions := e.partitions ++
          [pySlice e.my_list ((i : Int) * increments) (100 + (i : Int) * increments)] })
      e4
    Except.ok (e5.partitions, e5)

/-! Arithmetic facts about the embedded `math.ceil` division. -/

/-- On natural arguments with a positive divisor, `pyCeilDiv` is the usual
ceiling division `(n + m - 1) / m`. -/
theorem pyCeilDiv_coe (n m : Nat) (hm : 1 ≤ m) :
    pyCeilDiv (n : Int) (m : Int) = (((n + m - 1) / m : Nat) : Int) := by
  obtain ⟨j, rfl⟩ : ∃ j, m = j + 1 := ⟨m - 1, by omega⟩
  cases n with
  | zero =>
      have h : (0 + (j + 1) - 1) / (j + 1) = 0 := Nat.div_eq_of_lt (by omega)
      rw [h]
      rfl
  | succ k =>
      have h1 : pyCeilDiv ((k + 1 : Nat) : Int) ((j + 1 : Nat) : Int)
          = -(Int.negSucc (k / (j + 1))) := rfl
      have h2 : (k + 1) + (j + 1) - 1 = k + (j + 1) := by omega
      rw [h1, h2, Nat.add_div_right _ (by omega), Int.negSucc_eq]
      push_cast
      ring

/-- For a nonpositive dividend and a negative divisor, the floor division is
nonnegative, so `pyCeilDiv` of a natural by a negative is nonpositive. -/
theorem fdiv_neg_nonneg (n : Nat) (m : Int) (hm : m < 0) :
    0 ≤ Int.fdiv (-(n : Int)) m := by
  cases m with
  | ofNat a => exact absurd hm (Int.not_lt.mpr (Int.ofNat_nonneg a))
  | negSucc j =>
      cases n with
      | zero => exact le_refl 0
      | succ k =>
          have h : Int.fdiv (-((k + 1 : Nat) : Int)) (Int.negSucc j)
              = Int.ofNat ((k + 1) / (j + 1)) := rfl
          rw [h]
          exact Int.ofNat_nonneg _

/-! Facts about the embedded Python slice. -/

/-- On nonnegative (natural) bounds, `pySlice l a b` is `drop a` then
`take (b - a)`. -/
theorem pySlice_coe (l : List α) (a b : Nat) :
    pySlice l (a : Int) (b : Int) = (l.drop a).take (b - a) := by
  have ha : ¬((a : Int) < 0) := by omega
  have hb : ¬((b : Int) < 0) := by omega
  unfold pySlice pyBound
  simp only [ha, hb, if_false, Int.toNat_natCast]
  rcases le_or_lt a l.length with h | h
  · rw [min_eq_left h]
    rw [List.take_eq_take]
    simp only [List.length_drop]
    omega
  · rw [min_eq_right (le_of_lt h), List.drop_length,
        List.drop_eq_nil_of_le (le_of_lt h)]
    simp

/-- An index below the ceiling `(n + m - 1) / m` starts a slice strictly
inside the list: `i * m < n`. -/
theorem mul_lt_of_lt_ceilDiv {i n m : Nat} (hm : 1 ≤ m)
    (hi : i < (n + m - 1) / m) : i * m < n := by
  have h2 : (i + 1) * m ≤ ((n + m - 1) / m) * m := Nat.mul_le_mul_right m hi
  have h3 : ((n + m - 1) / m) * m ≤ n + m - 1 := Nat.div_mul_le_self _ _
  have h4 : (i + 1) * m = i * m + m := by ring
  omega

/-- Normal form of `partition_dict` at a positive batch size `m`: it always
succeeds, producing `(N + m - 1) / m` slices, the slice at index `i` being
`drop (i*m)` then `take 100` of the key sequence — the literal `100` of the
source, not `m`. -/
theorem partition_dict_pos (d : List (K × V)) (m : Nat) (hm : 1 ≤ m) :
    partition_dict d (m : Int) =
      Except.ok ((List.range ((d.length + m - 1) / m)).map (fun i =>
        ((d.map Prod.fst).drop (i * m)).take 100)) := by
  have hne : ¬((m : Int) = 0) := by
    intro h
    omega
  simp only [partition_dict, if_neg hne, List.length_map]
  congr 1
  rw [pyCeilDiv_coe _ _ hm, Int.toNat_natCast]
  refine List.map_congr_left ?_
  intro i _
  have h1 : ((i : Int) * (m : Int)) = ((i * m : Nat) : Int) := by push_cast; ring
  have h2 : ((100 : Int) + ((i * m : Nat) : Int)) = ((100 + i * m : Nat) : Int) := by
    push_cast; ring
  rw [h1, h2, pySlice_coe]
  congr 1
  omega

/-- The loop of `partition_dict_body` only appends to `partitions`; every
other variable of the environment is left untouched. -/
theorem body_foldl (inc : Int) (l : List Nat) (e : PyEnv K V) :
    (l.foldl (fun (e : PyEnv K V) (i : Nat) => { e with partitions := e.partitions ++
        [pySlice e.my_list ((i : Int) * inc) (100 + (i : Int) * inc)] }) e)
    = { e with partitions := e.partitions ++ l.map (fun (i : Nat) =>
        pySlice e.my_list ((i : Int) * inc) (100 + (i : Int) * inc)) } := by
  induction l generalizing e with
  | nil => simp
  | cons a t ih =>
      simp only [List.foldl_cons, List.map_cons, ih]
      simp [List.append_assoc]

/-! ## The claims -/

/-- C1: refuted on the code (code bug).  For the two-key dict with keys
`[1, 2]` and `increments = 1` (so N = 2, M = 1), the returned partitions
are `[[1, 2], [2]]`: their lengths sum to 3, not N = 2.  The overlap comes
from the literal `100` in the slice upper bound of the source. -/
theorem C1_sum_of_lengths_fails :
    (partition_dict ([(1, 0), (2, 0)] : List (Nat × Nat)) 1).map
        (fun ps => (ps.map List.length).sum) = Except.ok 3 ∧
    ([(1, 0), (2, 0)] : List (Nat × Nat)).length = 2 :=
  ⟨rfl, rfl⟩

/-- C2: refuted on the code (code bug).  For keys `[1, 2, 3]` and
`increments = 2` (N = 3, M = 2) the partitions are `[[1, 2, 3], [3]]`:
their concatenation `[1, 2, 3, 3]` is not the input key sequence
`[1, 2, 3]`, and the identifier `3` appears in two partitions. -/
theorem C2_concatenation_fails :
    (partition_dict ([(1, 0), (2, 0), (3, 0)] : List (Nat × Nat)) 2).map
        (fun ps => ps.flatten) = Except.ok [1, 2, 3, 3] ∧
    ([(1, 0), (2, 0), (3, 0)] : List (Nat × Nat)).map Prod.fst = [1, 2, 3] :=
  ⟨rfl, rfl⟩

/-- C3: refuted on the code (code bug).  For keys `[1, 2, 3]` and
`increments = 2` (N = 3, M = 2) the partition sizes are `[3, 1]`: the first
partition holds 3 > M identifiers, and the non-last partition does not have
length M. -/
theorem C3_partition_sizes_fail :
    (partition_dict ([(1, 0), (2, 0), (3, 0)] : List (Nat × Nat)) 2).map
        (fun ps => ps.map List.length) = Except.ok [3, 1] :=
  rfl

/-- C4: confirmed.  For every dict and every batch size `m ≥ 1`,
`partition_dict` succeeds and returns exactly `⌈N / m⌉ = (N + m - 1) / m`
partitions; in particular the result is the empty sequence when N = 0. -/
theorem C4_partition_count (d : List (K × V)) (m : Int) (hm : 1 ≤ m) :
    ∃ ps, partition_dict d m = Except.ok ps ∧
      ps.length = (d.length + m.toNat - 1) / m.toNat ∧
      (d.length = 0 → ps.length = 0) := by
  have hmn : 1 ≤ m.toNat := by omega
  have hcast : ((m.toNat : Nat) : Int) = m := Int.toNat_of_nonneg (by omega)
  refine ⟨_, by rw [← hcast]; exact partition_dict_pos d m.toNat hmn, ?_, ?_⟩
  · simp
  · intro h0
    simp only [List.length_map, List.length_range, h0]
    exact Nat.div_eq_of_lt (by omega)

/-- Witness for C4 at the three-key dict and batch size 2: ⌈3/2⌉ = 2
partitions. -/
theorem C4_partition_count_witness :
    (1 : Int) ≤ 2 ∧
    (∃ ps, partition_dict ([(1, 0), (2, 0), (3, 0)] : List (Nat × Nat)) 2
        = Except.ok ps ∧
      ps.length = (([(1, 0), (2, 0), (3, 0)] : List (Nat × Nat)).length
        + (2 : Int).toNat - 1) / (2 : Int).toNat ∧
      (([(1, 0), (2, 0), (3, 0)] : List (Nat × Nat)).length = 0 →
        ps.length = 0)) :=
  ⟨by decide, C4_partition_count [(1, 0), (2, 0), (3, 0)] 2 (by decide)⟩

/-- C5: refuted on the code (code bug).  With a non-positive batch size the
code never raises an InvalidArgument condition: `increments = -1` silently
returns the empty partition list (`math.ceil` of a non-positive quotient is
≤ 0, so the loop never runs), and `increments = 0` raises
`ZeroDivisionError`. -/
theorem C5_invalid_argument_not_raised :
    partition_dict ([(1, 0)] : List (Nat × Nat)) (-1) = Except.ok [] ∧
    partition_dict ([(1, 0)] : List (Nat × Nat)) 0 =
      Except.error PyErr.zeroDivisionError :=
  ⟨rfl, rfl⟩

set_option maxRecDepth 40000 in
/-- C6: confirmed.  At batch size 100 — the value of both the literal and
the single call site `partition_dict(tracks,100)` — `partition_dict`
coincides with the reference partitioner transcribed from the spec on every
input dict; and on an input of 333 identifiers it yields 4 partitions of
sizes [100, 100, 100, 33]. -/
theorem C6_agrees_with_spec_at_100 :
    (∀ (K V : Type) (d : List (K × V)),
        partition_dict d 100 = Except.ok (spec_partition (d.map Prod.fst) 100)) ∧
    (partition_dict ((List.range 333).map (fun i => (i, 0))) 100).map
        (fun ps => ps.map List.length) = Except.ok [100, 100, 100, 33] := by
  constructor
  · intro K V d
    have h := partition_dict_pos d 100 (by omega)
    have h100 : (((100 : Nat) : Int)) = (100 : Int) := by norm_num
    rw [h100] at h
    rw [h]
    simp [spec_partition]
  · rfl

/-- C7: confirmed.  The statement-level run of the body never mutates
`my_dict`: whenever the body returns, the final environment still carries
the input dict unchanged, and the returned value is exactly the pure
function `partition_dict` of the two arguments. -/
theorem C7_pure_no_side_effects (e0 : PyEnv K V) (inc : Int)
    (r : List (List K)) (e1 : PyEnv K V)
    (h : partition_dict_body e0 inc = Except.ok (r, e1)) :
    e1.my_dict = e0.my_dict ∧ partition_dict e0.my_dict inc = Except.ok r := by
  by_cases hz : inc = 0
  · simp [partition_dict_body, hz] at h
  · simp only [partition_dict_body, if_neg hz] at h
    rw [body_foldl] at h
    simp only [Except.ok.injEq, Prod.mk.injEq] at h
    obtain ⟨hr, he⟩ := h
    subst he
    refine ⟨rfl, ?_⟩
    simp only [partition_dict, if_neg hz]
    rw [← hr]
    simp

/-- Witness for C7: a concrete run of the body on the one-entry dict
[(1, 2)] with increments 1; the final environment keeps the dict intact. -/
theorem C7_pure_no_side_effects_witness :
    (PyEnv.mk [(1, 2)] [1] 1 1 [[1]] : PyEnv Nat Nat).my_dict
        = (PyEnv.mk [(1, 2)] [] 0 0 [] : PyEnv Nat Nat).my_dict ∧
    partition_dict (PyEnv.mk [(1, 2)] [] 0 0 [] : PyEnv Nat Nat).my_dict 1
        = Except.ok [[1]] :=
  C7_pure_no_side_effects (PyEnv.mk [(1, 2)] [] 0 0 []) 1 [[1]]
    (PyEnv.mk [(1, 2)] [1] 1 1 [[1]]) rfl

/-- C8: confirmed.  For a non-empty dict and any batch size m ≥ 1, every
returned partition is non-empty: every slice starts strictly inside the key
list, so it holds at least one identifier.  (This survives the literal 100,
which moves where slices end but not where they start.) -/
theorem C8_no_empty_partition (d : List (K × V)) (m : Int) (hm : 1 ≤ m)
    (_hd : d ≠ []) :
    ∃ ps, partition_dict d m = Except.ok ps ∧ ∀ p ∈ ps, p ≠ [] := by
  have hmn : 1 ≤ m.toNat := by omega
  have hcast : ((m.toNat : Nat) : Int) = m := Int.toNat_of_nonneg (by omega)
  refine ⟨_, by rw [← hcast]; exact partition_dict_pos d m.toNat hmn, ?_⟩
  intro p hp
  simp only [List.mem_map, List.mem_range] at hp
  obtain ⟨i, hi, rfl⟩ := hp
  have hlt : i * m.toNat < d.length := mul_lt_of_lt_ceilDiv hmn hi
  intro hcontra
  have hlen : (((d.map Prod.fst).drop (i * m.toNat)).take 100).length = 0 := by
    rw [hcontra]
    rfl
  simp only [List.length_take, List.length_drop, List.length_map] at hlen
  omega

/-- Witness for C8 at the one-key dict and batch size 1. -/
theorem C8_no_empty_partition_witness :
    (1 : Int) ≤ 1 ∧ ([((7 : Nat), (0 : Nat))] ≠ ([] : List (Nat × Nat))) ∧
    (∃ ps, partition_dict ([(7, 0)] : List (Nat × Nat)) 1 = Except.ok ps ∧
      ∀ p ∈ ps, p ≠ []) :=
  ⟨by decide, by decide,
    C8_no_empty_partition [(7, 0)] 1 (by decide) (by decide)⟩

/-- C9: confirmed.  A strictly negative batch size is silently degenerate:
`math.ceil(size/increments)` is then ≤ 0, the `range` is empty, and the
code returns the empty partition list without raising — unlike
increments = 0, which raises ZeroDivisionError. -/
theorem C9_negative_increments_silent_empty (d : List (K × V)) (m : Int)
    (hm : m < 0) :
    partition_dict d m = Except.ok [] ∧
    partition_dict d 0 = Except.error PyErr.zeroDivisionError := by
  constructor
  · have hne : ¬(m = 0) := by omega
    have h := fdiv_neg_nonneg (d.map Prod.fst).length m hm
    simp only [partition_dict, if_neg hne]
    have hz : (pyCeilDiv ((d.map Prod.fst).length : Int) m).toNat = 0 := by
      unfold pyCeilDiv
      omega
    rw [hz]
    rfl
  · simp [partition_dict]

/-- Witness for C9 at the one-key dict and batch size -5. -/
theorem C9_negative_increments_silent_empty_witness :
    (-5 : Int) < 0 ∧
    (partition_dict ([(1, 0)] : List (Nat × Nat)) (-5) = Except.ok [] ∧
     partition_dict ([(1, 0)] : List (Nat × Nat)) 0 =
       Except.error PyErr.zeroDivisionError) :=
  ⟨by decide, C9_negative_increments_silent_empty [(1, 0)] (-5) (by decide)⟩

/-- C10: confirmed.  The output depends only on the ordered key sequence
and `increments`: two dicts with the same keys in the same order, however
their values differ (even in type), produce identical output. -/
theorem C10_depends_only_on_keys (d1 : List (K × V1)) (d2 : List (K × V2))
    (m : Int) (h : d1.map Prod.fst = d2.map Prod.fst) :
    partition_dict d1 m = partition_dict d2 m := by
  simp only [partition_dict, h]

/-- Witness for C10: same single key 1, values 10 and true. -/
theorem C10_depends_only_on_keys_witness :
    ([(1, 10)] : List (Nat × Nat)).map Prod.fst
        = ([(1, true)] : List (Nat × Bool)).map Prod.fst ∧
    partition_dict ([(1, 10)] : List (Nat × Nat)) 1
        = partition_dict ([(1, true)] : List (Nat × Bool)) 1 :=
  ⟨rfl, C10_depends_only_on_keys [(1, 10)] [(1, true)] 1 rfl⟩

end Spotify
